import Mathlib

/-!
Verification development for the tc-context library (TwinCAT ADS client mirror).

The definitions below are a shallow embedding of the source files:
* `tc-binding.ts` — the binding layer (`TcBinding` and its variants),
* `tc-symbol.ts` / `tc-symbol-registry.ts` — invalidation cascade,
* `tc-context.ts` — the coordinator's `kill()`,
* `tc-com.ts` — `__splitData` request splitting,
* `tc-type.ts` — `TcStringType` / `TcNumericType` attribute mutation.

Conventions of the embedding:
* JS `Buffer`s are `List Nat` (byte lists); JS numbers and bigints are both
  modelled as `Int` (all numeric fields exercised by the claims are integral).
* Fallible methods return `Except TcErr α`; an `.error e` models a thrown
  exception, which in the source always happens before the corresponding
  transport (`TcCom`) call, so an `.error` result implies no transport call
  was issued by that operation.
* The `.ok` payload of `read`/`write`/`clear` is the exact list of pointers /
  data packages handed to the transport (`TcCom.read` / `TcCom.write`).
-/

/-- `TcSymbolPointer` from tc-com.ts: an `(indexGroup, indexOffset, size)`
byte range in the controller's address space. -/
structure TcSymbolPointer where
  indexGroup : Nat
  indexOffset : Nat
  size : Nat
deriving DecidableEq, Repr

/-- `TcDataPackage` from tc-com.ts: a symbol location plus the buffer of
data to write there. -/
structure TcDataPackage where
  indexGroup : Nat
  indexOffset : Nat
  data : List Nat
deriving DecidableEq, Repr

/-- The error taxonomy relevant to the binding layer (tc-exception.ts).
`jsError` stands for a plain JavaScript `Error`/`TypeError` raised outside
the `TcException` hierarchy (e.g. the namespace index-group throw). -/
inductive TcErr where
  | invalidBinding
  | invalidType
  | outOfRange
  | readOnly
  | jsError
deriving DecidableEq, Repr

/-- The state shared by every `TcBinding` (tc-binding.ts): the validity
flag, the (inherited) read-only flag of the owning symbol, and the memory
pointer of the bound PLC symbol. -/
structure BindCore where
  isValid : Bool
  readOnly : Bool
  pointer : TcSymbolPointer
deriving DecidableEq, Repr

mutual

/-- JavaScript values flowing through the binding layer: primitives
(boolean / number-or-bigint / string), plain objects, and arrays. -/
inductive TcValue where
  | b (v : Bool)
  | i (v : Int)
  | s (v : String)
  | obj (fields : TcFields)
  | arr (elems : TcElems)

/-- Ordered key/value fields of a JS object value. -/
inductive TcFields where
  | nil
  | cons (key : String) (value : TcValue) (rest : TcFields)

/-- Ordered elements of a JS array value. -/
inductive TcElems where
  | nil
  | cons (value : TcValue) (rest : TcElems)

end

mutual

/-- The `TcBinding` class hierarchy of tc-binding.ts as a tagged sum.
Simple bindings (`boolean`/`numeric`/`stringB`/`enum`) carry the type name
used for transport conversion and the type's optional default buffer;
composite bindings (`struct`/`array`/`namespaceB`) carry their ordered
child-binding table (JS object keys are strings, so array children are
keyed by the decimal string of `index + startIndex`). -/
inductive TcBinding where
  | boolean (core : BindCore) (typeName : String) (defaultBuffer : Option (List Nat))
  | numeric (core : BindCore) (typeName : String) (defaultBuffer : Option (List Nat))
      (adst : Nat) (lowerBorder upperBorder : Int)
  | stringB (core : BindCore) (typeName : String) (defaultBuffer : Option (List Nat))
      (length : Nat)
  | enum (core : BindCore) (typeName : String) (defaultBuffer : Option (List Nat))
      (buffers : List (String × List Nat))
  | struct (core : BindCore) (children : TcChildren)
  | array (core : BindCore) (startIndex : Nat) (length : Nat) (children : TcChildren)
  | namespaceB (core : BindCore) (children : TcChildren)

/-- The ordered child-binding table `__childrenBindings` of a composite. -/
inductive TcChildren where
  | nil
  | cons (key : String) (binding : TcBinding) (rest : TcChildren)

end

/-- The `BindCore` of a binding. -/
def TcBinding.core : TcBinding → BindCore
  | .boolean c _ _ => c
  | .numeric c _ _ _ _ _ => c
  | .stringB c _ _ _ => c
  | .enum c _ _ _ => c
  | .struct c _ => c
  | .array c _ _ _ => c
  | .namespaceB c _ => c

/-- The child table of a binding (empty for simple bindings). -/
def TcBinding.childrenOf : TcBinding → TcChildren
  | .struct _ ch => ch
  | .array _ _ _ ch => ch
  | .namespaceB _ ch => ch
  | _ => .nil

/-- Lookup `__childrenBindings[key]`. -/
def TcChildren.lookup (key : String) : TcChildren → Option TcBinding
  | .nil => none
  | .cons k b rest => if k = key then some b else lookup key rest

/-- Lookup a field of a JS object value. -/
def TcFields.lookup (key : String) : TcFields → Option TcValue
  | .nil => none
  | .cons k v rest => if k = key then some v else lookup key rest

/-- Lookup in the enum `__buffers` map (`TcEnumBuffers`). -/
def bufLookup (key : String) : List (String × List Nat) → Option (List Nat)
  | [] => none
  | (k, b) :: rest => if k = key then some b else bufLookup key rest

mutual

/-- `__readPackages`: simple bindings push their single pointer at
construction (tc-binding.ts line 444); composites concatenate their
children's lists in insertion order (`__addChild`). -/
def TcBinding.readPackages : TcBinding → List TcSymbolPointer
  | .boolean c _ _ => [c.pointer]
  | .numeric c _ _ _ _ _ => [c.pointer]
  | .stringB c _ _ _ => [c.pointer]
  | .enum c _ _ _ => [c.pointer]
  | .struct _ ch => TcChildren.readPackages ch
  | .array _ _ _ ch => TcChildren.readPackages ch
  | .namespaceB _ ch => TcChildren.readPackages ch

def TcChildren.readPackages : TcChildren → List TcSymbolPointer
  | .nil => []
  | .cons _ b rest => TcBinding.readPackages b ++ TcChildren.readPackages rest

end

mutual

/-- `__clearPackages`: a simple binding pushes one package exactly when the
type has a default buffer (tc-binding.ts lines 445-447) — the read-only
flag is not consulted there; composites concatenate their children's lists
(`__addChild`, line 542). -/
def TcBinding.clearPackages : TcBinding → List TcDataPackage
  | .boolean c _ db => match db with
      | some d => [⟨c.pointer.indexGroup, c.pointer.indexOffset, d⟩]
      | none => []
  | .numeric c _ db _ _ _ => match db with
      | some d => [⟨c.pointer.indexGroup, c.pointer.indexOffset, d⟩]
      | none => []
  | .stringB c _ db _ => match db with
      | some d => [⟨c.pointer.indexGroup, c.pointer.indexOffset, d⟩]
      | none => []
  | .enum c _ db _ => match db with
      | some d => [⟨c.pointer.indexGroup, c.pointer.indexOffset, d⟩]
      | none => []
  | .struct _ ch => TcChildren.clearPackages ch
  | .array _ _ _ ch => TcChildren.clearPackages ch
  | .namespaceB _ ch => TcChildren.clearPackages ch

def TcChildren.clearPackages : TcChildren → List TcDataPackage
  | .nil => []
  | .cons _ b rest => TcBinding.clearPackages b ++ TcChildren.clearPackages rest

end

mutual

/-- `TcBinding.invalidate` cascaded over a whole symbol subtree, as
`TcSymbol.__invalidate` does (children first, then the node itself,
tc-symbol.ts): every node's validity flag is set to `false`. -/
def TcBinding.invalidateAll : TcBinding → TcBinding
  | .boolean c tn db => .boolean { c with isValid := false } tn db
  | .numeric c tn db a lo hi => .numeric { c with isValid := false } tn db a lo hi
  | .stringB c tn db len => .stringB { c with isValid := false } tn db len
  | .enum c tn db bufs => .enum { c with isValid := false } tn db bufs
  | .struct c ch => .struct { c with isValid := false } (TcChildren.invalidateAll ch)
  | .array c s l ch => .array { c with isValid := false } s l (TcChildren.invalidateAll ch)
  | .namespaceB c ch => .namespaceB { c with isValid := false } (TcChildren.invalidateAll ch)

def TcChildren.invalidateAll : TcChildren → TcChildren
  | .nil => .nil
  | .cons k b rest => .cons k (TcBinding.invalidateAll b) (TcChildren.invalidateAll rest)

end

mutual

/-- `true` iff the binding and all its descendants have `isValid = false`. -/
def TcBinding.allInvalid : TcBinding → Bool
  | .boolean c _ _ => !c.isValid
  | .numeric c _ _ _ _ _ => !c.isValid
  | .stringB c _ _ _ => !c.isValid
  | .enum c _ _ _ => !c.isValid
  | .struct c ch => !c.isValid && TcChildren.allInvalid ch
  | .array c _ _ ch => !c.isValid && TcChildren.allInvalid ch
  | .namespaceB c ch => !c.isValid && TcChildren.allInvalid ch

def TcChildren.allInvalid : TcChildren → Bool
  | .nil => true
  | .cons _ b rest => TcBinding.allInvalid b && TcChildren.allInvalid rest

end

/-- `TcBinding.read` (tc-binding.ts lines 123-133): the validity check
precedes the `TcCom.read` call, so an `.error` result means no transport
read was issued; `.ok` returns the pointer list handed to the transport. -/
def TcBinding.read (b : TcBinding) : Except TcErr (List TcSymbolPointer) :=
  if b.core.isValid = false then .error .invalidBinding
  else .ok b.readPackages

/-- `TcBinding.clear` (tc-binding.ts lines 172-183): validity then
read-only check, both before the `TcCom.write(this.clearPackages)` call;
`.ok` returns the package list written to the transport. -/
def TcBinding.clear (b : TcBinding) : Except TcErr (List TcDataPackage) :=
  if b.core.isValid = false then .error .invalidBinding
  else if b.core.readOnly = true then .error .readOnly
  else .ok b.clearPackages

/-- The result of a `toRaw` conversion: the data packages produced, plus
the trace of `TcCom.toRaw(type, value)` encoder invocations made while
producing them (used to state that the enum write never calls the
encoder). -/
structure ToRawOut where
  packages : List TcDataPackage
  encCalls : List (String × TcValue)

/-- `Check.primitive(value) || Check.instance(value, BigInt)` of
`TcSimpleBinding.checkInput`: the value is a JS primitive. -/
def TcValue.isPrimitive : TcValue → Bool
  | .b _ => true
  | .i _ => true
  | .s _ => true
  | _ => false

/-- `TcBinding.checkInput` (tc-binding.ts lines 193-196): validity then
read-only check. -/
def checkBase (c : BindCore) : Except TcErr Unit :=
  if c.isValid = false then .error .invalidBinding
  else if c.readOnly = true then .error .readOnly
  else .ok ()

/-- `TcSimpleBinding.checkInput` (line 502): base checks plus the JS
primitive check. -/
def checkSimple (c : BindCore) (v : TcValue) : Except TcErr Unit := do
  checkBase c
  if v.isPrimitive = false then .error .invalidType else .ok ()

/-- `TcBooleanBinding.checkInput` (line 567). -/
def checkBoolean (c : BindCore) (v : TcValue) : Except TcErr Unit := do
  checkSimple c v
  match v with
  | .b _ => .ok ()
  | _ => .error .invalidType

/-- `TcNumericBinding.checkInput` (lines 613-619): base and primitive
checks, the numeric-kind check, then the bounds check `value > upper ||
value < lower`.  JS `number` and `bigint` are both modelled as `Int`, so
the number/bigint kind split of the source collapses to a single
numeric-constructor check. -/
def checkNumeric (c : BindCore) (lowerBorder upperBorder : Int) (v : TcValue) :
    Except TcErr Unit := do
  checkSimple c v
  match v with
  | .i n =>
      if n > upperBorder ∨ n < lowerBorder then .error .outOfRange else .ok ()
  | _ => .error .invalidType

/-- `TcStringBinding.checkInput` (lines 686-690): string check then the
length bound `value.length > this.__length`. -/
def checkString (c : BindCore) (length : Nat) (v : TcValue) : Except TcErr Unit := do
  checkSimple c v
  match v with
  | .s str => if str.length > length then .error .outOfRange else .ok ()
  | _ => .error .invalidType

/-- Keys of a JS object value, in order. -/
def TcFields.keys : TcFields → List String
  | .nil => []
  | .cons k _ rest => k :: keys rest

/-- `true` iff every key present in the value is a declared child of the
composite binding.  In the source the missing-key `TcBindingOutOfRangeException`
is thrown synchronously while iterating `Object.entries(value)`, before any
child conversion failure can be observed through `Promise.all`, so the
sequential embedding checks all keys first. -/
def TcChildren.allDeclared (ch : TcChildren) : TcFields → Bool
  | .nil => true
  | .cons k _ rest => (ch.lookup k).isSome && allDeclared ch rest

/-- Number of elements of a JS array value. -/
def TcElems.length : TcElems → Nat
  | .nil => 0
  | .cons _ rest => 1 + length rest

/-- `true` iff every index `startIndex + position` written by an array
value is a declared child (cf. `TcArrayBinding.toRaw`, lines 947-955). -/
def TcChildren.allIndexed (ch : TcChildren) (idx : Nat) : TcElems → Bool
  | .nil => true
  | .cons _ rest => (ch.lookup (toString idx)).isSome && allIndexed ch (idx + 1) rest

mutual

/-- `TcBinding.toRaw` over all binding variants (tc-binding.ts).
`enc` models the primitive converter `TcCom.toRaw(type, value)`.
* Simple bindings: `checkInput` then a single package with the encoded
  buffer (lines 483-492), recording one encoder call.
* Enum bindings: `super.checkInput`, the string check, then the
  pre-encoded buffer from `__buffers` — no encoder call (lines 749-754).
* Struct/namespace bindings: `checkInput` (object check), an
  `OutOfRange` error if a value key is not a declared child, else the
  concatenation of the children's conversions in value-key order
  (lines 833-859 and 1078-1104).
* Array bindings: `checkInput` (array and length check), then per-index
  children keyed by `index + startIndex` (lines 941-965). -/
def TcBinding.toRaw (enc : String → TcValue → List Nat) :
    TcBinding → TcValue → Except TcErr ToRawOut
  | .boolean c tn _, v => do
      checkBoolean c v
      .ok ⟨[⟨c.pointer.indexGroup, c.pointer.indexOffset, enc tn v⟩], [(tn, v)]⟩
  | .numeric c tn _ _ lo hi, v => do
      checkNumeric c lo hi v
      .ok ⟨[⟨c.pointer.indexGroup, c.pointer.indexOffset, enc tn v⟩], [(tn, v)]⟩
  | .stringB c tn _ len, v => do
      checkString c len v
      .ok ⟨[⟨c.pointer.indexGroup, c.pointer.indexOffset, enc tn v⟩], [(tn, v)]⟩
  | .enum c _tn _ bufs, v => do
      checkSimple c v
      match v with
      | .s str =>
          match bufLookup str bufs with
          | none => .error .outOfRange
          | some buf => .ok ⟨[⟨c.pointer.indexGroup, c.pointer.indexOffset, buf⟩], []⟩
      | _ => .error .invalidType
  | .struct c ch, v => do
      checkBase c
      match v with
      | .obj fields =>
          if ch.allDeclared fields = false then .error .outOfRange
          else TcBinding.toRawObj enc ch fields
      | _ => .error .invalidType
  | .array c start len ch, v => do
      checkBase c
      match v with
      | .arr elems =>
          if elems.length > len then .error .outOfRange
          else if ch.allIndexed start elems = false then .error .outOfRange
          else TcBinding.toRawElems enc ch start elems
      | _ => .error .invalidType
  | .namespaceB c ch, v => do
      checkBase c
      match v with
      | .obj fields =>
          if ch.allDeclared fields = false then .error .outOfRange
          else TcBinding.toRawObj enc ch fields
      | _ => .error .invalidType

/-- The per-entry loop of the struct/namespace `toRaw`: convert each
value field with its child binding and concatenate the results. -/
def TcBinding.toRawObj (enc : String → TcValue → List Nat) (ch : TcChildren) :
    TcFields → Except TcErr ToRawOut
  | .nil => .ok ⟨[], []⟩
  | .cons k v rest =>
      match ch.lookup k with
      | none => .error .outOfRange
      | some child => do
          let r ← TcBinding.toRaw enc child v
          let rs ← TcBinding.toRawObj enc ch rest
          .ok ⟨r.packages ++ rs.packages, r.encCalls ++ rs.encCalls⟩

/-- The per-index loop of the array `toRaw`. -/
def TcBinding.toRawElems (enc : String → TcValue → List Nat) (ch : TcChildren) (idx : Nat) :
    TcElems → Except TcErr ToRawOut
  | .nil => .ok ⟨[], []⟩
  | .cons v rest =>
      match ch.lookup (toString idx) with
      | none => .error .outOfRange
      | some child => do
          let r ← TcBinding.toRaw enc child v
          let rs ← TcBinding.toRawElems enc ch (idx + 1) rest
          .ok ⟨r.packages ++ rs.packages, r.encCalls ++ rs.encCalls⟩

end

/-- `TcBinding.write` (tc-binding.ts lines 152-161): the validity check,
then `toRaw`, whose packages are handed to `TcCom.write`.  An `.error`
result models an exception thrown before the transport write. -/
def TcBinding.write (b : TcBinding) (enc : String → TcValue → List Nat) (v : TcValue) :
    Except TcErr ToRawOut :=
  if b.core.isValid = false then .error .invalidBinding
  else b.toRaw enc v

/-- JS template-string interpolation of a primitive value (used for
`${result.name}` in the enum decode).  Claims only exercise the string
case; object/array interpolation is collapsed to its unreachable-in-practice
placeholder. -/
def TcValue.stringify : TcValue → String
  | .b true => "true"
  | .b false => "false"
  | .i n => toString n
  | .s str => str
  | .obj _ => "[object Object]"
  | .arr _ => ""

/-- `result.name` of the value returned by the transport decoder for an
enum read (tc-binding.ts line 735): property access on a JS value, where
a missing property interpolates as `"undefined"`. -/
def TcValue.nameProp : TcValue → String
  | .obj fields =>
      match fields.lookup "name" with
      | some v => v.stringify
      | none => "undefined"
  | _ => "undefined"

/-- The `ADST` wire-kind constants of tc-com.ts used by the claims. -/
def ADST.INT8 : Nat := 16
def ADST.UINT8 : Nat := 17
def ADST.INT16 : Nat := 2
def ADST.UINT16 : Nat := 18
def ADST.INT32 : Nat := 3
def ADST.UINT32 : Nat := 19
def ADST.INT64 : Nat := 20
def ADST.UINT64 : Nat := 21
def ADST.REAL32 : Nat := 4
def ADST.REAL64 : Nat := 5

/-- `TcSimpleBinding.fromRaw` (tc-binding.ts lines 460-471): validity
check, the `dataPackages.length > 1` check, then the transport decode of
the single package.  `dec` models `TcCom.fromRaw(type, buffer)`.  An empty
package list makes `dataPackages[0].data` raise a raw `TypeError`,
modelled as `jsError`. -/
def TcBinding.fromRawSimple (dec : String → List Nat → TcValue) (c : BindCore)
    (typeName : String) (pkgs : List TcDataPackage) : Except TcErr TcValue :=
  if c.isValid = false then .error .invalidBinding
  else if pkgs.length > 1 then .error .outOfRange
  else match pkgs with
    | [] => .error .jsError
    | pkg :: _ => .ok (dec typeName pkg.data)

mutual

/-- `TcBinding.fromRaw` over all variants (tc-binding.ts).
* Numeric: the decoded value, masked with `BigInt.asUintN(64, ·)` for
  unsigned 64-bit kinds (line 633); `asUintN` on a non-bigint raises a
  `TypeError`.
* Enum: the decoded `{ name }` object qualified as `"<typeName>.<name>"`
  (line 735).
* Struct/array/namespace: validity check, then the returned data-package
  vector is sliced by each child's read-package count and dispatched to
  that child, in child order (lines 797-820, 977-1000, 1043-1066). -/
def TcBinding.fromRaw (dec : String → List Nat → TcValue) :
    TcBinding → List TcDataPackage → Except TcErr TcValue
  | .boolean c tn _, pkgs => TcBinding.fromRawSimple dec c tn pkgs
  | .numeric c tn _ adst _ _, pkgs => do
      let v ← TcBinding.fromRawSimple dec c tn pkgs
      if adst = ADST.UINT64 then
        match v with
        | .i n => .ok (.i (n % ((2 : Int) ^ 64)))
        | _ => .error .jsError
      else .ok v
  | .stringB c tn _ _, pkgs => TcBinding.fromRawSimple dec c tn pkgs
  | .enum c tn _ _, pkgs => do
      let v ← TcBinding.fromRawSimple dec c tn pkgs
      .ok (.s (tn ++ "." ++ v.nameProp))
  | .struct c ch, pkgs =>
      if c.isValid = false then .error .invalidBinding
      else do
        let fields ← TcBinding.fromRawChildren dec ch pkgs
        .ok (.obj fields)
  | .array c _ _ ch, pkgs =>
      if c.isValid = false then .error .invalidBinding
      else do
        let elems ← TcBinding.fromRawElems dec ch pkgs
        .ok (.arr elems)
  | .namespaceB c ch, pkgs =>
      if c.isValid = false then .error .invalidBinding
      else do
        let fields ← TcBinding.fromRawChildren dec ch pkgs
        .ok (.obj fields)

/-- The slicing loop of the composite `fromRaw` for keyed children. -/
def TcBinding.fromRawChildren (dec : String → List Nat → TcValue) :
    TcChildren → List TcDataPackage → Except TcErr TcFields
  | .nil, _ => .ok .nil
  | .cons k b rest, pkgs => do
      let v ← TcBinding.fromRaw dec b (pkgs.take (TcBinding.readPackages b).length)
      let vs ← TcBinding.fromRawChildren dec rest (pkgs.drop (TcBinding.readPackages b).length)
      .ok (.cons k v vs)

/-- The slicing loop of the array `fromRaw` (children are stored in
ascending index order, so the produced sequence is in index order). -/
def TcBinding.fromRawElems (dec : String → List Nat → TcValue) :
    TcChildren → List TcDataPackage → Except TcErr TcElems
  | .nil, _ => .ok .nil
  | .cons _ b rest, pkgs => do
      let v ← TcBinding.fromRaw dec b (pkgs.take (TcBinding.readPackages b).length)
      let vs ← TcBinding.fromRawElems dec rest (pkgs.drop (TcBinding.readPackages b).length)
      .ok (.cons v vs)

end

/-- The loop body of `TcCom.__splitData` (tc-type.ts source file tc-com.ts,
lines 1639-1650), fuel-indexed: the original is a `do … while (startIndex <
data.length)` loop whose every iteration consumes `min(500, remaining)`
elements.  Each iteration removes at least one element whenever more than
500 remain, so `data.length` is enough fuel; the fuel-0 case is reached
only for the empty input, where the do-while also runs exactly one
iteration and pushes the empty slice. -/
def TcCom.splitGo {α : Type} : Nat → List α → List (List α)
  | 0, data => [data]
  | fuel + 1, data =>
      if data.length ≤ 500 then [data]
      else data.take 500 :: TcCom.splitGo fuel (data.drop 500)

/-- `TcCom.__splitData`: split a pointer or package list into consecutive
groups of at most 500 for the transport's multi-read/multi-write cap. -/
def TcCom.splitData {α : Type} (data : List α) : List (List α) :=
  TcCom.splitGo data.length data

/-- `TcNamespaceBinding.__addChild`, pointer-arithmetic part (tc-binding.ts
lines 1128-1156), acting on the namespace's own `(indexGroup, indexOffset,
size)` triple.  The source first establishes/checks the index group
(throwing a plain `Error` on a mismatch), then adjusts the offset/size:
the first child (current offset 0) installs its own interval; a child
starting strictly past the current end sets the size so the interval ends
at the child's end; a child starting strictly before the current offset
moves the offset down keeping the end; any other child leaves the interval
unchanged. -/
def TcNamespaceBinding.addChild (ns child : TcSymbolPointer) :
    Except TcErr TcSymbolPointer :=
  let g := if ns.indexGroup = 0 then child.indexGroup else ns.indexGroup
  if ns.indexGroup ≠ 0 ∧ ns.indexGroup ≠ child.indexGroup then .error .jsError
  else if ns.indexOffset = 0 then
    .ok ⟨g, child.indexOffset, child.size⟩
  else if ns.indexOffset + ns.size < child.indexOffset then
    .ok ⟨g, ns.indexOffset, child.indexOffset - ns.indexOffset + child.size⟩
  else if ns.indexOffset > child.indexOffset then
    .ok ⟨g, child.indexOffset, ns.indexOffset - child.indexOffset + ns.size⟩
  else
    .ok ⟨g, ns.indexOffset, ns.size⟩

/-- Folding `TcNamespaceBinding.__addChild` over a sequence of children. -/
def TcNamespaceBinding.addChildren (ns : TcSymbolPointer) :
    List TcSymbolPointer → Except TcErr TcSymbolPointer
  | [] => .ok ns
  | c :: cs =>
      match TcNamespaceBinding.addChild ns c with
      | .error e => .error e
      | .ok ns1 => TcNamespaceBinding.addChildren ns1 cs

/-- The mutable pieces of a `TcContext` relevant to teardown: whether the
type registry map exists, whether the ADS connection is up, and the
namespace handles handed out by the symbol registry. -/
structure CtxState where
  typesCreated : Bool
  connected : Bool
  namespaces : List TcBinding

/-- The observable teardown steps of `TcContext.kill`. -/
inductive KillStep where
  | destroyTypes
  | destroySymbols
  | disconnect
deriving DecidableEq, Repr

/-- `TcTypeRegistry.destroy`: drops the type map. -/
def TcTypeRegistry.destroy (s : CtxState) : CtxState × KillStep :=
  ({ s with typesCreated := false }, .destroyTypes)

/-- `TcSymbolRegistry.destroy` (tc-symbol-registry.ts lines 107-116):
invalidates every handed-out namespace handle (cascading to all
descendants) and clears the registry map. -/
def TcSymbolRegistry.destroy (s : CtxState) : CtxState × KillStep :=
  ({ s with namespaces := s.namespaces.map TcBinding.invalidateAll }, .destroySymbols)

/-- `TcCom.disconnect`: tears down the ADS connection. -/
def TcCom.disconnect (s : CtxState) : CtxState × KillStep :=
  ({ s with connected := false }, .disconnect)

/-- `TcContext.kill` (tc-context.ts lines 131-142): the three awaited
teardown calls in source order, with the observable step trace. -/
def TcContext.kill (s : CtxState) : CtxState × List KillStep :=
  let (s1, e1) := TcTypeRegistry.destroy s
  let (s2, e2) := TcSymbolRegistry.destroy s1
  let (s3, e3) := TcCom.disconnect s2
  (s3, [e1, e2, e3])

/-- `String.prototype.toLowerCase()` on the ASCII attribute keys used by
the type layer (core `String.toLower` does not reduce in the kernel, so
the embedding maps over the character list). -/
def jsToLowerCase (s : String) : String := ⟨s.data.map Char.toLower⟩

/-- `String.prototype.trim()` on attribute keys. -/
def jsTrim (s : String) : String :=
  ⟨((s.data.dropWhile Char.isWhitespace).reverse.dropWhile Char.isWhitespace).reverse⟩

/-- Decimal-digit accumulation for the numeric attribute values. -/
def digitsToNat : List Char → Option Nat
  | [] => none
  | ds => ds.foldl (fun acc c => match acc with
      | none => none
      | some n => if c.isDigit then some (n * 10 + (c.toNat - 48)) else none) (some 0)

/-- `parseFloat(value)` / `BigInt(value)` as used by
`TcNumericType.__getParameter` on the integer literals the attribute
grammar carries: a decimal integer string parses to its value, anything
else to `none` (`NaN`/exception in JS — not exercised by the claims). -/
def parseDecInt (s : String) : Option Int :=
  match s.data with
  | '-' :: ds => (digitsToNat ds).map (fun n => -(n : Int))
  | ds => (digitsToNat ds).map (fun n => (n : Int))

/-- The attribute-mutable fields shared by every `TcType`
(tc-type.ts lines 262-277 and surrounding state). -/
structure TcTypeBaseFields where
  readOnly : Bool
  ignored : Bool
  onSet : Option String
  onGet : Option String
  onClear : Option String
  onChange : Option String
deriving DecidableEq, Repr

/-- A fresh `TcType` base: no attribute has been applied. -/
def TcTypeBaseFields.fresh : TcTypeBaseFields :=
  ⟨false, false, none, none, none, none⟩

/-- `TcType.__getParameter` (tc-type.ts lines 262-277): the base attribute
dispatch — key trimmed and lower-cased, unknown keys ignored. -/
def TcType.getParameter (b : TcTypeBaseFields) (name value : String) : TcTypeBaseFields :=
  let nameFormatted := jsToLowerCase (jsTrim name)
  if nameFormatted = "readonly" then { b with readOnly := true }
  else if nameFormatted = "ignored" then { b with ignored := true }
  else if nameFormatted = "onset" then { b with onSet := some value }
  else if nameFormatted = "onget" then { b with onGet := some value }
  else if nameFormatted = "onclear" then { b with onClear := some value }
  else if nameFormatted = "onchange" then { b with onChange := some value }
  else b

/-- Possible states of the untyped `__default` field of a `TcType`
(`any` in the source: the string type's getter can observe a boolean,
a string, or the unset state). -/
inductive JsDefault where
  | unset
  | jsBool (v : Bool)
  | jsStr (v : String)
deriving DecidableEq, Repr

/-- `TcStringType` (tc-type.ts lines 661-776): the attribute-relevant
state of a `STRING`/`WSTRING` type node. -/
structure TcStringType where
  base : TcTypeBaseFields
  length : Nat
  default : JsDefault
deriving DecidableEq, Repr

/-- `TcStringType.__getParameter` (tc-type.ts lines 763-769), verbatim:
after the base dispatch, a `default` attribute sets `this.__default =
true` — the boolean literal, not the attribute's value. -/
def TcStringType.getParameter (t : TcStringType) (name value : String) : TcStringType :=
  let t := { t with base := TcType.getParameter t.base name value }
  let nameFormatted := jsToLowerCase (jsTrim name)
  if nameFormatted = "default" then { t with default := .jsBool true }
  else t

/-- The `TcStringType.defaultValue` getter (tc-type.ts lines 711-715):
the empty string when `__default` is unset, the stored value otherwise. -/
def TcStringType.defaultValue (t : TcStringType) : JsDefault :=
  match t.default with
  | .unset => .jsStr ""
  | d => d

/-- `TcType.mutate` restricted to a string type: apply each attribute
`(name, value)` pair in order (tc-type.ts lines 164-169). -/
def TcStringType.mutate (t : TcStringType) (attrs : List (String × String)) : TcStringType :=
  attrs.foldl (fun t a => t.getParameter a.1 a.2) t

/-- `TcNumericType` (tc-type.ts lines 457-656): the attribute-relevant
state of a numeric type node.  `Option Int` fields model the `undefined`
initial state of `__lowerBorder` / `__upperBorder` / `__default`. -/
structure TcNumericType where
  base : TcTypeBaseFields
  adst : Nat
  lowerB : Option Int
  upperB : Option Int
  default : Option Int
deriving DecidableEq, Repr

/-- A numeric type node fresh from the raw catalogue: no borders or
default set by attributes yet. -/
def TcNumericType.fresh (adst : Nat) : TcNumericType :=
  ⟨TcTypeBaseFields.fresh, adst, none, none, none⟩

/-- `TcNumericType.ranges` (tc-type.ts lines 464-475): the natural range
of every supported wire kind.  The 64-bit maxima reflect the JS runtime
values: `BigInt(9223372036854775807)` and `BigInt(18446744073709551615)`
round their number literals to `2^63` and `2^64` before conversion.  The
float bounds are modelled by the decimal values of the source literals
(only their signs matter to any statement below). -/
def TcNumericType.ranges (adst : Nat) : Option (Int × Int) :=
  if adst = ADST.INT8 then some (-128, 127)
  else if adst = ADST.UINT8 then some (0, 255)
  else if adst = ADST.UINT16 then some (0, 65535)
  else if adst = ADST.INT16 then some (-32768, 32767)
  else if adst = ADST.INT32 then some (-2147483648, 2147483647)
  else if adst = ADST.UINT32 then some (0, 4294967295)
  else if adst = ADST.INT64 then some (-9223372036854775808, 9223372036854775808)
  else if adst = ADST.UINT64 then some (0, 18446744073709551616)
  else if adst = ADST.REAL32 then some (-340282300000000000000000000000000000000,
    340282300000000000000000000000000000000)
  else if adst = ADST.REAL64 then some (
    -17976931348623158 * 10 ^ 292, 17976931348623158 * 10 ^ 292)
  else none

/-- The `TcNumericType.upperBorder` getter (tc-type.ts lines 530-535):
the explicit border if one was set, else the kind's natural maximum
(`none` models the `ranges[adst]` crash for an unsupported kind). -/
def TcNumericType.upperBorder (t : TcNumericType) : Option Int :=
  match t.upperB with
  | some u => some u
  | none => (TcNumericType.ranges t.adst).map Prod.snd

/-- The `TcNumericType.lowerBorder` getter (tc-type.ts lines 541-545). -/
def TcNumericType.lowerBorder (t : TcNumericType) : Option Int :=
  match t.lowerB with
  | some l => some l
  | none => (TcNumericType.ranges t.adst).map Prod.fst

/-- The `TcNumericType.defaultValue` getter (tc-type.ts lines 518-525):
`0` (`BigInt(0)` for 64-bit kinds — the same `Int`) when unset. -/
def TcNumericType.defaultValue (t : TcNumericType) : Int :=
  match t.default with
  | some d => d
  | none => 0

/-- `TcNumericType.__getParameter` (tc-type.ts lines 618-644): after the
base dispatch, `lowerborder` parses and installs the lower border and also
installs it as the default when no default is set yet; `upperborder`
parses the upper border; `default` parses the default.  `BigInt(value)`
for 64-bit kinds and `parseFloat(value)` otherwise coincide on the decimal
integer literals modelled by `parseDecInt` (an unparsable literal leaves
`NaN`; the claims never exercise one). -/
def TcNumericType.getParameter (t : TcNumericType) (name value : String) : TcNumericType :=
  let t := { t with base := TcType.getParameter t.base name value }
  let nameFormatted := jsToLowerCase (jsTrim name)
  if nameFormatted = "lowerborder" then
    let t := { t with lowerB := parseDecInt value }
    if t.default = none then { t with default := t.lowerB } else t
  else if nameFormatted = "upperborder" then { t with upperB := parseDecInt value }
  else if nameFormatted = "default" then { t with default := parseDecInt value }
  else t

/-- `TcType.mutate` restricted to a numeric type: apply each attribute
pair in order. -/
def TcNumericType.mutate (t : TcNumericType) (attrs : List (String × String)) : TcNumericType :=
  attrs.foldl (fun t a => t.getParameter a.1 a.2) t

/-- Membership of a binding in a child table. -/
inductive ChildMem : TcBinding → TcChildren → Prop where
  | head (k : String) (b : TcBinding) (rest : TcChildren) : ChildMem b (.cons k b rest)
  | tail (k : String) (b0 b : TcBinding) (rest : TcChildren) :
      ChildMem b rest → ChildMem b (.cons k b0 rest)

/-- `Descendant d b`: `d` is reached from `b` through zero or more child
tables — the shape of the symbol subtree owned by `b`. -/
inductive Descendant : TcBinding → TcBinding → Prop where
  | refl (b : TcBinding) : Descendant b b
  | step (b c d : TcBinding) : ChildMem c b.childrenOf → Descendant d c → Descendant d b

/-- Membership of a key/value entry in a JS object value
(`Object.entries(value)`). -/
inductive FieldsMem : String → TcValue → TcFields → Prop where
  | head (k : String) (v : TcValue) (rest : TcFields) : FieldsMem k v (.cons k v rest)
  | tail (k0 : String) (v0 : TcValue) (k : String) (v : TcValue) (rest : TcFields) :
      FieldsMem k v rest → FieldsMem k v (.cons k0 v0 rest)

mutual

theorem TcBinding.allInvalid_invalidateAll : ∀ b : TcBinding,
    TcBinding.allInvalid (TcBinding.invalidateAll b) = true
  | .boolean _ _ _ => by simp [TcBinding.invalidateAll, TcBinding.allInvalid]
  | .numeric _ _ _ _ _ _ => by simp [TcBinding.invalidateAll, TcBinding.allInvalid]
  | .stringB _ _ _ _ => by simp [TcBinding.invalidateAll, TcBinding.allInvalid]
  | .enum _ _ _ _ => by simp [TcBinding.invalidateAll, TcBinding.allInvalid]
  | .struct _ ch => by
      simp [TcBinding.invalidateAll, TcBinding.allInvalid,
        TcChildren.allInvalid_invalidateAllTable ch]
  | .array _ _ _ ch => by
      simp [TcBinding.invalidateAll, TcBinding.allInvalid,
        TcChildren.allInvalid_invalidateAllTable ch]
  | .namespaceB _ ch => by
      simp [TcBinding.invalidateAll, TcBinding.allInvalid,
        TcChildren.allInvalid_invalidateAllTable ch]

theorem TcChildren.allInvalid_invalidateAllTable : ∀ cs : TcChildren,
    TcChildren.allInvalid (TcChildren.invalidateAll cs) = true
  | .nil => by simp [TcChildren.invalidateAll, TcChildren.allInvalid]
  | .cons _ b rest => by
      simp [TcChildren.invalidateAll, TcChildren.allInvalid,
        TcBinding.allInvalid_invalidateAll b, TcChildren.allInvalid_invalidateAllTable rest]

end

theorem TcBinding.allInvalid_isValid {b : TcBinding} (h : b.allInvalid = true) :
    b.core.isValid = false := by
  cases b <;> simp [TcBinding.allInvalid, TcBinding.core] at h ⊢ <;> simp [h]

theorem TcBinding.allInvalid_childrenOf {b : TcBinding} (h : b.allInvalid = true) :
    TcChildren.allInvalid b.childrenOf = true := by
  cases b <;> simp [TcBinding.allInvalid, TcBinding.childrenOf, TcChildren.allInvalid] at h ⊢ <;>
    exact h.2

theorem TcChildren.allInvalid_mem {c : TcBinding} {cs : TcChildren}
    (hmem : ChildMem c cs) (h : cs.allInvalid = true) : c.allInvalid = true := by
  induction hmem with
  | head k b rest => simp [TcChildren.allInvalid] at h; exact h.1
  | tail k b0 b rest hm ih =>
      simp [TcChildren.allInvalid] at h
      exact ih h.2

theorem TcBinding.allInvalid_descendant {b d : TcBinding}
    (hd : Descendant d b) (h : b.allInvalid = true) : d.allInvalid = true := by
  induction hd with
  | refl b => exact h
  | step b c d hc hdc ih =>
      exact ih (TcChildren.allInvalid_mem hc (TcBinding.allInvalid_childrenOf h))

/-- C2: after invalidating a root symbol (as `TcSymbolRegistry.destroy`
does for every namespace), the validity flag of every descendant symbol's
binding is `false`, and every subsequent `read()`, `write(v)` or `clear()`
on any of those bindings fails with the `InvalidBinding` error
(`TcBindingIsInvalidException`); the error is raised by the validity check
that precedes the transport call in each operation, so no transport call
is issued. -/
theorem tcBinding_invalidate_cascade (root d : TcBinding)
    (hd : Descendant d (TcBinding.invalidateAll root)) :
    d.core.isValid = false ∧
    TcBinding.read d = .error .invalidBinding ∧
    (∀ (enc : String → TcValue → List Nat) (v : TcValue),
        TcBinding.write d enc v = .error .invalidBinding) ∧
    TcBinding.clear d = .error .invalidBinding := by
  have hall : d.allInvalid = true :=
    TcBinding.allInvalid_descendant hd (TcBinding.allInvalid_invalidateAll root)
  have hv : d.core.isValid = false := TcBinding.allInvalid_isValid hall
  refine ⟨hv, ?_, ?_, ?_⟩
  · simp [TcBinding.read, hv]
  · intro enc v
    simp [TcBinding.write, hv]
  · simp [TcBinding.clear, hv]

/-- Witness for C2 at a concrete two-level tree: a namespace with one
boolean leaf, whose invalidated leaf refuses all operations. -/
theorem tcBinding_invalidate_cascade_witness :
    Descendant (TcBinding.boolean ⟨false, false, ⟨16448, 0, 2⟩⟩ "BOOL" (some [0]))
      (TcBinding.invalidateAll (TcBinding.namespaceB ⟨true, false, ⟨16448, 0, 2⟩⟩
        (.cons "m" (.boolean ⟨true, false, ⟨16448, 0, 2⟩⟩ "BOOL" (some [0])) .nil))) ∧
    ((TcBinding.boolean ⟨false, false, ⟨16448, 0, 2⟩⟩ "BOOL" (some [0])).core.isValid = false ∧
     TcBinding.read (.boolean ⟨false, false, ⟨16448, 0, 2⟩⟩ "BOOL" (some [0])) =
       .error .invalidBinding ∧
     (∀ (enc : String → TcValue → List Nat) (v : TcValue),
        TcBinding.write (.boolean ⟨false, false, ⟨16448, 0, 2⟩⟩ "BOOL" (some [0])) enc v =
          .error .invalidBinding) ∧
     TcBinding.clear (.boolean ⟨false, false, ⟨16448, 0, 2⟩⟩ "BOOL" (some [0])) =
       .error .invalidBinding) := by
  have hd : Descendant (TcBinding.boolean ⟨false, false, ⟨16448, 0, 2⟩⟩ "BOOL" (some [0]))
      (TcBinding.invalidateAll (TcBinding.namespaceB ⟨true, false, ⟨16448, 0, 2⟩⟩
        (.cons "m" (.boolean ⟨true, false, ⟨16448, 0, 2⟩⟩ "BOOL" (some [0])) .nil))) :=
    Descendant.step _ _ _
      (ChildMem.head "m" (.boolean ⟨false, false, ⟨16448, 0, 2⟩⟩ "BOOL" (some [0])) .nil)
      (Descendant.refl _)
  exact ⟨hd, tcBinding_invalidate_cascade _ _ hd⟩

theorem TcChildren.allDeclared_of_mem_none {ch : TcChildren} {k : String} {v : TcValue}
    {fields : TcFields} (hm : FieldsMem k v fields) (hnone : ch.lookup k = none) :
    ch.allDeclared fields = false := by
  induction hm with
  | head k v rest => simp [TcChildren.allDeclared, hnone]
  | tail k0 v0 k v rest hm ih => simp [TcChildren.allDeclared, ih hnone]

theorem TcChildren.isSome_of_allDeclared {ch : TcChildren} {fields : TcFields}
    (h : ch.allDeclared fields = true) {k : String} {v : TcValue}
    (hm : FieldsMem k v fields) : (ch.lookup k).isSome = true := by
  induction hm with
  | head k v rest => simp [TcChildren.allDeclared] at h; exact h.1
  | tail k0 v0 k v rest hm ih =>
      simp [TcChildren.allDeclared] at h
      exact ih h.2

theorem TcBinding.toRawObj_sound (enc : String → TcValue → List Nat) (ch : TcChildren) :
    ∀ (fields : TcFields) (out : ToRawOut),
    TcBinding.toRawObj enc ch fields = .ok out →
    ∀ pkg ∈ out.packages, ∃ k v child cout, FieldsMem k v fields ∧
      ch.lookup k = some child ∧ TcBinding.toRaw enc child v = .ok cout ∧
      pkg ∈ cout.packages
  | .nil, out, h => by
      simp [TcBinding.toRawObj] at h
      subst h
      intro pkg hpkg
      simp at hpkg
  | .cons k v rest, out, h => by
      simp only [TcBinding.toRawObj] at h
      cases hl : ch.lookup k with
      | none => simp [hl] at h
      | some child =>
          simp only [hl] at h
          cases hr : TcBinding.toRaw enc child v with
          | error e => simp [hr, bind, Except.bind] at h
          | ok r =>
              simp only [hr, bind, Except.bind] at h
              cases hrs : TcBinding.toRawObj enc ch rest with
              | error e => simp [hrs] at h
              | ok rs =>
                  simp only [hrs, Except.ok.injEq] at h
                  subst h
                  intro pkg hpkg
                  dsimp only at hpkg
                  rcases List.mem_append.mp hpkg with hleft | hright
                  · exact ⟨k, v, child, r, FieldsMem.head k v rest, hl, hr, hleft⟩
                  · rcases TcBinding.toRawObj_sound enc ch rest rs hrs pkg hright with
                      ⟨k2, v2, child2, cout2, hm2, hl2, hr2, hp2⟩
                    exact ⟨k2, v2, child2, cout2, FieldsMem.tail k v k2 v2 rest hm2,
                      hl2, hr2, hp2⟩

theorem TcBinding.write_struct_eq {c : BindCore} (ch : TcChildren)
    (enc : String → TcValue → List Nat) (fields : TcFields)
    (hv : c.isValid = true) (hro : c.readOnly = false) :
    TcBinding.write (.struct c ch) enc (.obj fields) =
      (if ch.allDeclared fields = false then .error .outOfRange
       else TcBinding.toRawObj enc ch fields) := by
  simp [TcBinding.write, TcBinding.core, TcBinding.toRaw, checkBase, hv, hro,
    bind, Except.bind]

theorem TcBinding.write_namespace_eq {c : BindCore} (ch : TcChildren)
    (enc : String → TcValue → List Nat) (fields : TcFields)
    (hv : c.isValid = true) (hro : c.readOnly = false) :
    TcBinding.write (.namespaceB c ch) enc (.obj fields) =
      (if ch.allDeclared fields = false then .error .outOfRange
       else TcBinding.toRawObj enc ch fields) := by
  simp [TcBinding.write, TcBinding.core, TcBinding.toRaw, checkBase, hv, hro,
    bind, Except.bind]

/-- C6: for a valid, non-read-only struct or namespace binding,
`write(value)` fails with the `OutOfRange` error whenever `value` contains
a key that is not a declared child; and on success every transport package
it dispatches was produced by the child binding of a key actually present
in `value` — so the bytes of all absent declared members are left
untouched. -/
theorem tcCompositeBinding_presentKeys_write (c : BindCore) (ch : TcChildren)
    (enc : String → TcValue → List Nat) (fields : TcFields)
    (hv : c.isValid = true) (hro : c.readOnly = false) :
    (∀ k v, FieldsMem k v fields → ch.lookup k = none →
        TcBinding.write (.struct c ch) enc (.obj fields) = .error .outOfRange ∧
        TcBinding.write (.namespaceB c ch) enc (.obj fields) = .error .outOfRange) ∧
    (∀ out : ToRawOut,
        (TcBinding.write (.struct c ch) enc (.obj fields) = .ok out ∨
         TcBinding.write (.namespaceB c ch) enc (.obj fields) = .ok out) →
        (∀ k v, FieldsMem k v fields → (ch.lookup k).isSome = true) ∧
        (∀ pkg ∈ out.packages, ∃ k v child cout, FieldsMem k v fields ∧
            ch.lookup k = some child ∧ TcBinding.toRaw enc child v = .ok cout ∧
            pkg ∈ cout.packages)) := by
  constructor
  · intro k v hm hnone
    have hdecl := TcChildren.allDeclared_of_mem_none hm hnone
    rw [TcBinding.write_struct_eq ch enc fields hv hro,
      TcBinding.write_namespace_eq ch enc fields hv hro]
    simp [hdecl]
  · intro out hok
    have heq : (if ch.allDeclared fields = false then
        (.error .outOfRange : Except TcErr ToRawOut)
       else TcBinding.toRawObj enc ch fields) = .ok out := by
      rcases hok with hok | hok
      · rw [TcBinding.write_struct_eq ch enc fields hv hro] at hok; exact hok
      · rw [TcBinding.write_namespace_eq ch enc fields hv hro] at hok; exact hok
    by_cases hdecl : ch.allDeclared fields = false
    · rw [if_pos hdecl] at heq; cases heq
    · rw [if_neg hdecl] at heq
      have hdecl2 : ch.allDeclared fields = true := by
        cases hval : ch.allDeclared fields
        · exact absurd hval hdecl
        · rfl
      refine ⟨fun k v hm => TcChildren.isSome_of_allDeclared hdecl2 hm, ?_⟩
      exact TcBinding.toRawObj_sound enc ch fields out heq

/-- Witness for C6: a struct with declared children `x`, `y`; writing
`{ x := true }` dispatches only `x`'s package, and writing a value with
the undeclared key `zz` fails with `OutOfRange`. -/
theorem tcCompositeBinding_presentKeys_write_witness :
    (⟨true, false, ⟨16448, 0, 3⟩⟩ : BindCore).isValid = true ∧
    (⟨true, false, ⟨16448, 0, 3⟩⟩ : BindCore).readOnly = false ∧
    (TcBinding.write
        (.struct ⟨true, false, ⟨16448, 0, 3⟩⟩
          (.cons "x" (.boolean ⟨true, false, ⟨16448, 0, 1⟩⟩ "BOOL" (some [0]))
            (.cons "y" (.boolean ⟨true, false, ⟨16448, 1, 1⟩⟩ "BOOL" (some [0])) .nil)))
        (fun _ _ => [1]) (.obj (.cons "zz" (.b true) .nil)) = .error .outOfRange ∧
     TcBinding.write
        (.namespaceB ⟨true, false, ⟨16448, 0, 3⟩⟩
          (.cons "x" (.boolean ⟨true, false, ⟨16448, 0, 1⟩⟩ "BOOL" (some [0]))
            (.cons "y" (.boolean ⟨true, false, ⟨16448, 1, 1⟩⟩ "BOOL" (some [0])) .nil)))
        (fun _ _ => [1]) (.obj (.cons "zz" (.b true) .nil)) = .error .outOfRange) := by
  refine ⟨rfl, rfl, ?_⟩
  exact (tcCompositeBinding_presentKeys_write ⟨true, false, ⟨16448, 0, 3⟩⟩
      (.cons "x" (.boolean ⟨true, false, ⟨16448, 0, 1⟩⟩ "BOOL" (some [0]))
        (.cons "y" (.boolean ⟨true, false, ⟨16448, 1, 1⟩⟩ "BOOL" (some [0])) .nil))
      (fun _ _ => [1]) (.cons "zz" (.b true) .nil) rfl rfl).1 "zz" (.b true)
    (FieldsMem.head "zz" (.b true) .nil) (by simp [TcChildren.lookup])

theorem TcBinding.write_numeric_eq {c : BindCore} (tn : String) (db : Option (List Nat))
    (adst : Nat) (lo hi : Int) (enc : String → TcValue → List Nat) (v : Int)
    (hv : c.isValid = true) (hro : c.readOnly = false) :
    TcBinding.write (.numeric c tn db adst lo hi) enc (.i v) =
      (if v > hi ∨ v < lo then .error .outOfRange
       else .ok ⟨[⟨c.pointer.indexGroup, c.pointer.indexOffset, enc tn (.i v)⟩],
         [(tn, .i v)]⟩) := by
  by_cases hcmp : v > hi ∨ v < lo
  · simp [TcBinding.write, TcBinding.core, TcBinding.toRaw, checkNumeric, checkSimple,
      checkBase, TcValue.isPrimitive, hv, hro, bind, Except.bind, hcmp]
  · simp [TcBinding.write, TcBinding.core, TcBinding.toRaw, checkNumeric, checkSimple,
      checkBase, TcValue.isPrimitive, hv, hro, bind, Except.bind, hcmp]

/-- C7: for a valid, non-read-only numeric binding and an integral value
`v` of the binding's numeric kind, `write(v)` succeeds exactly when
`lower ≤ v ≤ upper`; when `v > upper` (in particular `v = upper + 1`) or
`v < lower` it fails with the `OutOfRange` error, thrown by `checkInput`
inside `toRaw`, before `TcCom.write` is ever invoked — so no transport
write is issued. -/
theorem tcNumericBinding_bounds (c : BindCore) (tn : String) (db : Option (List Nat))
    (adst : Nat) (lo hi : Int) (enc : String → TcValue → List Nat) (v : Int)
    (hv : c.isValid = true) (hro : c.readOnly = false) :
    ((∃ out : ToRawOut, TcBinding.write (.numeric c tn db adst lo hi) enc (.i v) = .ok out) ↔
      (lo ≤ v ∧ v ≤ hi)) ∧
    ((v > hi ∨ v < lo) →
      TcBinding.write (.numeric c tn db adst lo hi) enc (.i v) = .error .outOfRange) := by
  rw [TcBinding.write_numeric_eq tn db adst lo hi enc v hv hro]
  by_cases hcmp : v > hi ∨ v < lo
  · rw [if_pos hcmp]
    refine ⟨⟨fun ⟨out, hout⟩ => absurd hout (by simp), fun hin => absurd hcmp (by omega)⟩,
      fun _ => rfl⟩
  · rw [if_neg hcmp]
    refine ⟨⟨fun _ => by omega, fun _ => ⟨_, rfl⟩⟩, fun h => absurd h hcmp⟩

/-- Witness for C7 on a 16-bit integer binding with bounds
`[-32768, 32767]`: writing `32768 = upper + 1` fails with `OutOfRange`
and writing `5` succeeds. -/
theorem tcNumericBinding_bounds_witness :
    (⟨true, false, ⟨16448, 4, 2⟩⟩ : BindCore).isValid = true ∧
    (⟨true, false, ⟨16448, 4, 2⟩⟩ : BindCore).readOnly = false ∧
    TcBinding.write
      (.numeric ⟨true, false, ⟨16448, 4, 2⟩⟩ "INT" (some [0, 0]) ADST.INT16 (-32768) 32767)
      (fun _ _ => [1, 0]) (.i 32768) = .error .outOfRange ∧
    ((-32768 : Int) ≤ 5 ∧ (5 : Int) ≤ 32767) := by
  refine ⟨rfl, rfl, ?_, by omega⟩
  exact (tcNumericBinding_bounds ⟨true, false, ⟨16448, 4, 2⟩⟩ "INT" (some [0, 0])
    ADST.INT16 (-32768) 32767 (fun _ _ => [1, 0]) 32768 rfl rfl).2 (by omega)

/-- C8: for a valid, non-read-only enum binding, `write(s)` fails with the
`OutOfRange` error when `s` is not a key of the encoding map; for a key
`s` it dispatches the pre-encoded buffer from the map with an empty
encoder-call trace — `TcCom.toRaw` is never invoked; and the read decode
qualifies the transport's `{ name }` result as `"<typeName>.<name>"`. -/
theorem tcEnumBinding_spec (c : BindCore) (tn : String) (db : Option (List Nat))
    (bufs : List (String × List Nat)) (enc : String → TcValue → List Nat) (str : String)
    (hv : c.isValid = true) (hro : c.readOnly = false) :
    (bufLookup str bufs = none →
        TcBinding.write (.enum c tn db bufs) enc (.s str) = .error .outOfRange) ∧
    (∀ buf, bufLookup str bufs = some buf →
        TcBinding.write (.enum c tn db bufs) enc (.s str) =
          .ok ⟨[⟨c.pointer.indexGroup, c.pointer.indexOffset, buf⟩], []⟩) ∧
    (∀ (dec : String → List Nat → TcValue) (pkg : TcDataPackage) (n : String),
        dec tn pkg.data = .obj (.cons "name" (.s n) .nil) →
        TcBinding.fromRaw dec (.enum c tn db bufs) [pkg] = .ok (.s (tn ++ "." ++ n))) := by
  refine ⟨?_, ?_, ?_⟩
  · intro hnone
    simp [TcBinding.write, TcBinding.core, TcBinding.toRaw, checkSimple, checkBase,
      TcValue.isPrimitive, hv, hro, bind, Except.bind, hnone]
  · intro buf hsome
    simp [TcBinding.write, TcBinding.core, TcBinding.toRaw, checkSimple, checkBase,
      TcValue.isPrimitive, hv, hro, bind, Except.bind, hsome]
  · intro dec pkg n hdec
    simp [TcBinding.fromRaw, TcBinding.fromRawSimple, hv, hdec, TcValue.nameProp,
      TcFields.lookup, TcValue.stringify, bind, Except.bind]

/-- Witness for C8 on a two-member enum: writing the known key `"E.a"`
dispatches its pre-encoded buffer with no encoder call, writing the
unknown key `"a"` (unqualified) fails with `OutOfRange`, and decoding
`{ name := "b" }` reads back `"E.b"`. -/
theorem tcEnumBinding_spec_witness :
    (⟨true, false, ⟨16448, 6, 2⟩⟩ : BindCore).isValid = true ∧
    (⟨true, false, ⟨16448, 6, 2⟩⟩ : BindCore).readOnly = false ∧
    bufLookup "E.a" [("E.a", [1, 0]), ("E.b", [2, 0])] = some [1, 0] ∧
    TcBinding.write
      (.enum ⟨true, false, ⟨16448, 6, 2⟩⟩ "E" (some [1, 0]) [("E.a", [1, 0]), ("E.b", [2, 0])])
      (fun _ _ => [9, 9]) (.s "E.a") = .ok ⟨[⟨16448, 6, [1, 0]⟩], []⟩ ∧
    TcBinding.fromRaw (fun _ _ => .obj (.cons "name" (.s "b") .nil))
      (.enum ⟨true, false, ⟨16448, 6, 2⟩⟩ "E" (some [1, 0]) [("E.a", [1, 0]), ("E.b", [2, 0])])
      [⟨16448, 6, [2, 0]⟩] = .ok (.s "E.b") := by
  have h := tcEnumBinding_spec ⟨true, false, ⟨16448, 6, 2⟩⟩ "E" (some [1, 0])
    [("E.a", [1, 0]), ("E.b", [2, 0])] (fun _ _ => [9, 9]) "E.a" rfl rfl
  refine ⟨rfl, rfl, by simp [bufLookup], ?_, ?_⟩
  · exact h.2.1 [1, 0] (by simp [bufLookup])
  · exact h.2.2 (fun _ _ => .obj (.cons "name" (.s "b") .nil)) ⟨16448, 6, [2, 0]⟩ "b" rfl

/-- C1 (code bug, evaluated at the failing input): a valid, writable
struct whose member `b` is a read-only string leaf with a default buffer.
`clearPackages` is populated in the `TcSimpleBinding` constructor from the
type's default buffer alone — the read-only flag is never consulted — and
the composite concatenates it, so the parent `clear()` hands the transport
a package addressed to the read-only child (offset 102), clearing it.
The README (TcSymbol ReadOnly Attribute) and the spec instead require the
read-only child to be skipped. -/
theorem tcClear_writes_readonly_descendant :
    TcBinding.clear
        (.struct ⟨true, false, ⟨16448, 100, 83⟩⟩
          (.cons "a" (.numeric ⟨true, false, ⟨16448, 100, 2⟩⟩ "INT" (some [0, 0])
              ADST.INT16 (-32768) 32767)
            (.cons "b" (.stringB ⟨true, true, ⟨16448, 102, 81⟩⟩ "STRING" (some [1, 2, 3]) 80)
              .nil))) =
      .ok [⟨16448, 100, [0, 0]⟩, ⟨16448, 102, [1, 2, 3]⟩] ∧
    (TcBinding.stringB ⟨true, true, ⟨16448, 102, 81⟩⟩ "STRING" (some [1, 2, 3]) 80).core.readOnly
      = true ∧
    (⟨16448, 102, [1, 2, 3]⟩ : TcDataPackage) ∈
      [(⟨16448, 100, [0, 0]⟩ : TcDataPackage), ⟨16448, 102, [1, 2, 3]⟩] := by
  exact ⟨rfl, rfl, by simp⟩

/-- C3 counterexample: at a live context, `kill()`'s observable step trace
starts with the type-registry destroy, not the symbol-registry destroy the
claim requires. -/
theorem tcContextKill_order_counterexample :
    (TcContext.kill ⟨true, true, []⟩).2 =
      [KillStep.destroyTypes, KillStep.destroySymbols, KillStep.disconnect] ∧
    (TcContext.kill ⟨true, true, []⟩).2 ≠
      [KillStep.destroySymbols, KillStep.destroyTypes, KillStep.disconnect] := by
  exact ⟨rfl, by decide⟩

/-- C3 (amended): `kill()` performs its teardown steps in the order:
destroy the type registry first, then destroy the symbol registry
(invalidating all handed-out handles), then disconnect the transport. -/
theorem tcContextKill_order (s : CtxState) :
    (TcContext.kill s).2 =
      [KillStep.destroyTypes, KillStep.destroySymbols, KillStep.disconnect] := rfl

theorem TcCom.splitGo_join {α : Type} : ∀ (fuel : Nat) (data : List α),
    data.length ≤ fuel → (TcCom.splitGo fuel data).flatten = data
  | 0, data, h => by
      have hnil : data = [] := List.eq_nil_of_length_eq_zero (by omega)
      subst hnil
      simp [TcCom.splitGo]
  | fuel + 1, data, h => by
      rw [TcCom.splitGo]
      by_cases hle : data.length ≤ 500
      · simp [hle]
      · rw [if_neg hle]
        have ih := TcCom.splitGo_join fuel (data.drop 500)
          (by rw [List.length_drop]; omega)
        simp [List.flatten, ih]

theorem TcCom.splitGo_chunks {α : Type} : ∀ (fuel : Nat) (data : List α),
    data.length ≤ fuel → ∀ chunk ∈ TcCom.splitGo fuel data, chunk.length ≤ 500
  | 0, data, h => by
      have hnil : data = [] := List.eq_nil_of_length_eq_zero (by omega)
      subst hnil
      simp [TcCom.splitGo]
  | fuel + 1, data, h => by
      rw [TcCom.splitGo]
      by_cases hle : data.length ≤ 500
      · simp [hle]
      · rw [if_neg hle]
        intro chunk hc
        rcases List.mem_cons.mp hc with hc | hc
        · subst hc
          simp [List.length_take]
        · exact TcCom.splitGo_chunks fuel (data.drop 500)
            (by rw [List.length_drop]; omega) chunk hc

theorem TcCom.splitGo_count {α : Type} : ∀ (fuel : Nat) (data : List α),
    data.length ≤ fuel → data ≠ [] →
    (TcCom.splitGo fuel data).length = (data.length + 499) / 500
  | 0, data, h, hne => absurd (List.eq_nil_of_length_eq_zero (by omega)) hne
  | fuel + 1, data, h, hne => by
      rw [TcCom.splitGo]
      by_cases hle : data.length ≤ 500
      · rw [if_pos hle]
        have hpos : data.length ≠ 0 := fun hz => hne (List.eq_nil_of_length_eq_zero hz)
        simp
        omega
      · rw [if_neg hle]
        have hdropne : data.drop 500 ≠ [] := by
          intro hnil
          have := congrArg List.length hnil
          simp [List.length_drop] at this
          omega
        have ih := TcCom.splitGo_count fuel (data.drop 500)
          (by rw [List.length_drop]; omega) hdropne
        simp only [List.length_cons, ih, List.length_drop]
        omega

/-- C4 (amended): for every nonempty list of `m` read pointers or write
packages, `__splitData` produces exactly `⌈m/500⌉` consecutive groups,
each of size at most 500, in the original order, whose concatenation is
the input list (`TcCom.read`/`TcCom.write` then issue one transport call
per group).  An empty list yields one empty group — the do-while loop body
runs at least once — rather than the zero groups `⌈0/500⌉` would give. -/
theorem tcComSplitData_spec {α : Type} (data : List α) (h : data ≠ []) :
    (TcCom.splitData data).length = (data.length + 499) / 500 ∧
    (∀ chunk ∈ TcCom.splitData data, chunk.length ≤ 500) ∧
    (TcCom.splitData data).flatten = data :=
  ⟨TcCom.splitGo_count data.length data le_rfl h,
   TcCom.splitGo_chunks data.length data le_rfl,
   TcCom.splitGo_join data.length data le_rfl⟩

/-- C4 counterexample: on the empty list the claim's `⌈m/500⌉ = 0` group
count is violated — the do-while loop produces one (empty) group. -/
theorem tcComSplitData_empty_counterexample :
    TcCom.splitData ([] : List Nat) = [[]] ∧
    (TcCom.splitData ([] : List Nat)).length = 1 ∧
    ((([] : List Nat)).length + 499) / 500 = 0 := by
  exact ⟨rfl, rfl, rfl⟩

/-- Witness for C4 at the three-element list: one group of three, in
order. -/
theorem tcComSplitData_spec_witness :
    ([1, 2, 3] : List Nat) ≠ [] ∧
    ((TcCom.splitData ([1, 2, 3] : List Nat)).length =
        (([1, 2, 3] : List Nat).length + 499) / 500 ∧
     (∀ chunk ∈ TcCom.splitData ([1, 2, 3] : List Nat), chunk.length ≤ 500) ∧
     (TcCom.splitData ([1, 2, 3] : List Nat)).flatten = [1, 2, 3]) :=
  ⟨by simp, tcComSplitData_spec [1, 2, 3] (by simp)⟩

theorem TcNamespaceBinding.addChild_step {g : Nat} (hg : g ≠ 0)
    (ns c : TcSymbolPointer) (hnsg : ns.indexGroup = g) (hcg : c.indexGroup = g)
    (hoff : 1 ≤ ns.indexOffset) (hcoff : 1 ≤ c.indexOffset) :
    ∃ ns1, TcNamespaceBinding.addChild ns c = .ok ns1 ∧
      ns1.indexGroup = g ∧ 1 ≤ ns1.indexOffset ∧
      ns1.indexOffset ≤ ns.indexOffset ∧ ns1.indexOffset ≤ c.indexOffset ∧
      (ns1.indexOffset = ns.indexOffset ∨ ns1.indexOffset = c.indexOffset) ∧
      (ns1.indexOffset + ns1.size = ns.indexOffset + ns.size ∨
       ns1.indexOffset + ns1.size = c.indexOffset + c.size) := by
  simp only [TcNamespaceBinding.addChild, hnsg, hcg]
  have h1 : ¬(g ≠ 0 ∧ g ≠ g) := by simp
  rw [if_neg h1]
  have h2 : ¬(ns.indexOffset = 0) := by omega
  rw [if_neg h2]
  rw [if_neg hg]
  by_cases h3 : ns.indexOffset + ns.size < c.indexOffset
  · rw [if_pos h3]
    refine ⟨⟨g, ns.indexOffset, c.indexOffset - ns.indexOffset + c.size⟩, rfl, rfl,
      ?_, ?_, ?_, Or.inl rfl, Or.inr ?_⟩
    · show 1 ≤ ns.indexOffset
      omega
    · show ns.indexOffset ≤ ns.indexOffset
      omega
    · show ns.indexOffset ≤ c.indexOffset
      omega
    · show ns.indexOffset + (c.indexOffset - ns.indexOffset + c.size) =
        c.indexOffset + c.size
      omega
  · rw [if_neg h3]
    by_cases h4 : ns.indexOffset > c.indexOffset
    · rw [if_pos h4]
      refine ⟨⟨g, c.indexOffset, ns.indexOffset - c.indexOffset + ns.size⟩, rfl, rfl,
        ?_, ?_, ?_, Or.inr rfl, Or.inl ?_⟩
      · show 1 ≤ c.indexOffset
        omega
      · show c.indexOffset ≤ ns.indexOffset
        omega
      · show c.indexOffset ≤ c.indexOffset
        omega
      · show c.indexOffset + (ns.indexOffset - c.indexOffset + ns.size) =
          ns.indexOffset + ns.size
        omega
    · rw [if_neg h4]
      refine ⟨⟨g, ns.indexOffset, ns.size⟩, rfl, rfl, ?_, ?_, ?_,
        Or.inl rfl, Or.inl rfl⟩
      · show 1 ≤ ns.indexOffset
        omega
      · show ns.indexOffset ≤ ns.indexOffset
        omega
      · show ns.indexOffset ≤ c.indexOffset
        omega

theorem TcNamespaceBinding.addChildren_inv {g : Nat} (hg : g ≠ 0) :
    ∀ (cs : List TcSymbolPointer) (ns nsr : TcSymbolPointer),
    ns.indexGroup = g → 1 ≤ ns.indexOffset →
    (∀ c ∈ cs, c.indexGroup = g ∧ 1 ≤ c.indexOffset) →
    TcNamespaceBinding.addChildren ns cs = .ok nsr →
    nsr.indexGroup = g ∧ 1 ≤ nsr.indexOffset ∧
    nsr.indexOffset ≤ ns.indexOffset ∧
    (∀ c ∈ cs, nsr.indexOffset ≤ c.indexOffset) ∧
    (nsr.indexOffset = ns.indexOffset ∨ ∃ c ∈ cs, nsr.indexOffset = c.indexOffset) ∧
    (nsr.indexOffset + nsr.size = ns.indexOffset + ns.size ∨
     ∃ c ∈ cs, nsr.indexOffset + nsr.size = c.indexOffset + c.size)
  | [], ns, nsr, hnsg, hoff, hcs, heq => by
      simp [TcNamespaceBinding.addChildren] at heq
      subst heq
      exact ⟨hnsg, hoff, le_rfl, by simp, Or.inl rfl, Or.inl rfl⟩
  | c :: cs, ns, nsr, hnsg, hoff, hcs, heq => by
      obtain ⟨hcg, hcoff⟩ := hcs c (by simp)
      obtain ⟨ns1, hstep, h1g, h1off, h1le, h1lec, h1or, h1end⟩ :=
        TcNamespaceBinding.addChild_step hg ns c hnsg hcg hoff hcoff
      rw [TcNamespaceBinding.addChildren] at heq
      rw [hstep] at heq
      obtain ⟨hg2, hoff2, hle2, hlec2, hor2, hend2⟩ :=
        TcNamespaceBinding.addChildren_inv hg cs ns1 nsr h1g h1off
          (fun x hx => hcs x (by simp [hx])) heq
      refine ⟨hg2, hoff2, le_trans hle2 h1le, ?_, ?_, ?_⟩
      · intro x hx
        rcases List.mem_cons.mp hx with hx | hx
        · subst hx
          exact le_trans hle2 h1lec
        · exact hlec2 x hx
      · rcases hor2 with h | ⟨x, hx, h⟩
        · rcases h1or with h1 | h1
          · exact Or.inl (by omega)
          · exact Or.inr ⟨c, by simp, by omega⟩
        · exact Or.inr ⟨x, by simp [hx], h⟩
      · rcases hend2 with h | ⟨x, hx, h⟩
        · rcases h1end with h1 | h1
          · exact Or.inl (by omega)
          · exact Or.inr ⟨c, by simp, by omega⟩
        · exact Or.inr ⟨x, by simp [hx], h⟩

/-- C5 (amended): for a namespace binding, adding a child whose index
group differs from the established one fails fatally; and after attaching
a nonempty sequence of children (all of one nonzero group, all with
positive offsets) the namespace's group is that common group, its
`indexOffset` is exactly the minimum child offset, and `indexOffset +
size` is the end of one of the children — but not necessarily the maximum
child end: a child that starts at or before the current interval end never
extends it (see the counterexample), so the claimed span
`[min offset, max end)` does not hold in general. -/
theorem tcNamespaceBinding_growth_amended :
    (∀ ns c : TcSymbolPointer, ns.indexGroup ≠ 0 → c.indexGroup ≠ ns.indexGroup →
        TcNamespaceBinding.addChild ns c = .error .jsError) ∧
    (∀ (g : Nat) (c0 : TcSymbolPointer) (cs : List TcSymbolPointer)
        (nsr : TcSymbolPointer), g ≠ 0 →
        (∀ c ∈ c0 :: cs, c.indexGroup = g ∧ 1 ≤ c.indexOffset) →
        TcNamespaceBinding.addChildren ⟨0, 0, 0⟩ (c0 :: cs) = .ok nsr →
        nsr.indexGroup = g ∧
        (∀ c ∈ c0 :: cs, nsr.indexOffset ≤ c.indexOffset) ∧
        (∃ c ∈ c0 :: cs, nsr.indexOffset = c.indexOffset) ∧
        (∃ c ∈ c0 :: cs, nsr.indexOffset + nsr.size = c.indexOffset + c.size)) := by
  constructor
  · intro ns c h1 h2
    have hcond : ns.indexGroup ≠ 0 ∧ ns.indexGroup ≠ c.indexGroup :=
      ⟨h1, fun he => h2 he.symm⟩
    simp [TcNamespaceBinding.addChild, hcond]
  · intro g c0 cs nsr hg hcs heq
    obtain ⟨hc0g, hc0off⟩ := hcs c0 (by simp)
    have hstep0 : TcNamespaceBinding.addChild ⟨0, 0, 0⟩ c0 =
        .ok ⟨c0.indexGroup, c0.indexOffset, c0.size⟩ := by
      simp [TcNamespaceBinding.addChild]
    rw [TcNamespaceBinding.addChildren] at heq
    rw [hstep0] at heq
    obtain ⟨hg2, hoff2, hle2, hlec2, hor2, hend2⟩ :=
      TcNamespaceBinding.addChildren_inv hg cs ⟨c0.indexGroup, c0.indexOffset, c0.size⟩ nsr
        (by simpa using hc0g) (by simpa using hc0off)
        (fun x hx => hcs x (by simp [hx])) heq
    refine ⟨hg2, ?_, ?_, ?_⟩
    · intro x hx
      rcases List.mem_cons.mp hx with hx | hx
      · subst hx
        simpa using hle2
      · exact hlec2 x hx
    · rcases hor2 with h | ⟨x, hx, h⟩
      · exact ⟨c0, by simp, by simpa using h⟩
      · exact ⟨x, by simp [hx], h⟩
    · rcases hend2 with h | ⟨x, hx, h⟩
      · exact ⟨c0, by simp, by simpa using h⟩
      · exact ⟨x, by simp [hx], h⟩

/-- C5 counterexample: two same-group children `[100, 110)` and
`[110, 115)` — the second starts exactly at the current end, the guard
`indexOffset + size < child.indexOffset` is strictly false, and the size
stays 10; the claim's exact span `[100, 115)` would require size 15. -/
theorem tcNamespaceBinding_growth_counterexample :
    TcNamespaceBinding.addChildren ⟨0, 0, 0⟩ [⟨16448, 100, 10⟩, ⟨16448, 110, 5⟩] =
      .ok ⟨16448, 100, 10⟩ ∧
    (10 : Nat) ≠ (110 + 5) - 100 := by
  exact ⟨rfl, by decide⟩

/-- Witness for C5 at two gapped children `[100, 110)` and `[120, 125)`:
the interval grows to `[100, 125)` and both invariants of the amended
claim hold. -/
theorem tcNamespaceBinding_growth_amended_witness :
    ((16448 : Nat) ≠ 0 ∧
     (∀ c ∈ [(⟨16448, 100, 10⟩ : TcSymbolPointer), ⟨16448, 120, 5⟩],
        c.indexGroup = 16448 ∧ 1 ≤ c.indexOffset) ∧
     TcNamespaceBinding.addChildren ⟨0, 0, 0⟩
       [(⟨16448, 100, 10⟩ : TcSymbolPointer), ⟨16448, 120, 5⟩] = .ok ⟨16448, 100, 25⟩) ∧
    ((⟨16448, 100, 25⟩ : TcSymbolPointer).indexGroup = 16448 ∧
     (∀ c ∈ [(⟨16448, 100, 10⟩ : TcSymbolPointer), ⟨16448, 120, 5⟩],
        (⟨16448, 100, 25⟩ : TcSymbolPointer).indexOffset ≤ c.indexOffset) ∧
     (∃ c ∈ [(⟨16448, 100, 10⟩ : TcSymbolPointer), ⟨16448, 120, 5⟩],
        (⟨16448, 100, 25⟩ : TcSymbolPointer).indexOffset = c.indexOffset) ∧
     (∃ c ∈ [(⟨16448, 100, 10⟩ : TcSymbolPointer), ⟨16448, 120, 5⟩],
        (⟨16448, 100, 25⟩ : TcSymbolPointer).indexOffset +
          (⟨16448, 100, 25⟩ : TcSymbolPointer).size = c.indexOffset + c.size)) := by
  have h1 : (16448 : Nat) ≠ 0 := by decide
  have h2 : ∀ c ∈ [(⟨16448, 100, 10⟩ : TcSymbolPointer), ⟨16448, 120, 5⟩],
      c.indexGroup = 16448 ∧ 1 ≤ c.indexOffset := by decide
  have h3 : TcNamespaceBinding.addChildren ⟨0, 0, 0⟩
      [(⟨16448, 100, 10⟩ : TcSymbolPointer), ⟨16448, 120, 5⟩] = .ok ⟨16448, 100, 25⟩ := rfl
  exact ⟨⟨h1, h2, h3⟩,
    tcNamespaceBinding_growth_amended.2 16448 ⟨16448, 100, 10⟩ [⟨16448, 120, 5⟩]
      ⟨16448, 100, 25⟩ h1 h2 h3⟩

/-- C9 (code bug, evaluated at the failing input): applying the attribute
`('Default', 'hello world')` to a string type sets `__default` to the
boolean literal `true` — `TcStringType.__getParameter` assigns
`this.__default = true` instead of `value` — so `defaultValue` is not the
attribute's literal string, contradicting the README's Default-attribute
documentation (clear() is documented to write back `'hello world'`). -/
theorem tcStringType_default_attr_eval :
    TcStringType.defaultValue
        (TcStringType.mutate ⟨TcTypeBaseFields.fresh, 50, .unset⟩
          [("Default", "hello world")]) = .jsBool true ∧
    TcStringType.defaultValue
        (TcStringType.mutate ⟨TcTypeBaseFields.fresh, 50, .unset⟩
          [("Default", "hello world")]) ≠ .jsStr "hello world" := by
  constructor
  · decide
  · decide

/-- C10 counterexample: an 8-bit integer type (natural range
`[-128, 127]`) mutated with the attribute `('Default', '200')` ends with
`defaultValue = 200 > upperBorder = 127`; no check enforces the claimed
invariant after attribute mutations. -/
theorem tcNumericType_range_counterexample :
    TcNumericType.upperBorder
        (TcNumericType.mutate (TcNumericType.fresh ADST.INT8) [("Default", "200")]) =
      some 127 ∧
    TcNumericType.defaultValue
        (TcNumericType.mutate (TcNumericType.fresh ADST.INT8) [("Default", "200")]) = 200 ∧
    ¬(TcNumericType.defaultValue
        (TcNumericType.mutate (TcNumericType.fresh ADST.INT8) [("Default", "200")]) ≤ 127) := by
  refine ⟨by decide, by decide, by decide⟩

set_option maxHeartbeats 1000000 in
/-- C10 (amended): for every numeric type node whose borders and default
were not overridden by attributes, `lower ≤ defaultValue ≤ upper` holds —
every natural range of the `TcNumericType.ranges` table contains the
implicit default `0`.  Attribute mutations (`default`, `lowerborder`,
`upperborder`) are applied without any consistency check and can violate
the inequality, as the counterexample shows. -/
theorem tcNumericType_fresh_default_in_range (adst : Nat) (mn mx : Int)
    (h : TcNumericType.ranges adst = some (mn, mx)) :
    TcNumericType.lowerBorder (TcNumericType.fresh adst) = some mn ∧
    TcNumericType.upperBorder (TcNumericType.fresh adst) = some mx ∧
    mn ≤ TcNumericType.defaultValue (TcNumericType.fresh adst) ∧
    TcNumericType.defaultValue (TcNumericType.fresh adst) ≤ mx := by
  have hbounds : mn ≤ 0 ∧ 0 ≤ mx := by
    unfold TcNumericType.ranges at h
    split_ifs at h
    all_goals injection h with h2
    all_goals injection h2 with ha hb
    all_goals subst ha
    all_goals subst hb
    all_goals constructor
    all_goals norm_num
  refine ⟨?_, ?_, ?_, ?_⟩
  · simp [TcNumericType.lowerBorder, TcNumericType.fresh, h]
  · simp [TcNumericType.upperBorder, TcNumericType.fresh, h]
  · simpa [TcNumericType.defaultValue, TcNumericType.fresh] using hbounds.1
  · simpa [TcNumericType.defaultValue, TcNumericType.fresh] using hbounds.2

/-- Witness for C10 at the 8-bit signed kind: `-128 ≤ 0 ≤ 127`. -/
theorem tcNumericType_fresh_default_in_range_witness :
    TcNumericType.ranges ADST.INT8 = some (-128, 127) ∧
    (TcNumericType.lowerBorder (TcNumericType.fresh ADST.INT8) = some (-128) ∧
     TcNumericType.upperBorder (TcNumericType.fresh ADST.INT8) = some 127 ∧
     (-128 : Int) ≤ TcNumericType.defaultValue (TcNumericType.fresh ADST.INT8) ∧
     TcNumericType.defaultValue (TcNumericType.fresh ADST.INT8) ≤ 127) :=
  ⟨rfl, tcNumericType_fresh_default_in_range ADST.INT8 (-128) 127 rfl⟩
